import Mathlib

set_option maxRecDepth 8000

/-!
Verification of the visual-odometry / SLAM front end (SLAMModule):
feature extraction, patch tracking, pose-delta estimation and landmark-map
maintenance, shallowly embedded from the JavaScript source.

Conventions of the embedding:
* pixel coordinates and intensities are integers (`ℤ`); metric quantities,
  qualities and angles are exact rationals (`ℚ`), idealizing JS float64;
* a frame's `data` is a total function `ℤ → ℤ`; out-of-range reads are 0,
  which models the source's `data[idx] || 0` fallback;
* the transcendental functions `Math.atan2`, `Math.cos`, `Math.sin` and the
  constant `Math.PI` are parameters of the definitions that use them, so every
  theorem below holds in particular for their real interpretations;
* `Math.hypot d1 d2 < t` (with `t > 0`) is rendered sqrt-free as
  `d1^2 + d2^2 < t^2`, an exact equivalence over the reals;
* JS `Array.prototype.sort` with comparator `a.dx - b.dx` is rendered with
  `List.insertionSort`; only the sorted projection is ever read, so any
  sorted-by-key permutation yields the same value at a given index.
-/

namespace SLAM

/-- A bare pixel point `{x, y}` as produced by the tracker search. -/
structure P2 where
  x : ℤ
  y : ℤ
  deriving DecidableEq, Repr

/-- A detected feature `{x, y, score, depth}` (the constant `type: "obstacle"`
field is omitted: only obstacle-classified features are ever returned). -/
structure Feature where
  x : ℤ
  y : ℤ
  score : ℕ
  depth : Option ℚ
  deriving DecidableEq, Repr

/-- A corner candidate recorded during the detection scan:
`{x, y, score, brighterCount, darkerCount, depth}`. -/
structure Cand where
  x : ℤ
  y : ℤ
  score : ℕ
  brighterCount : ℕ
  darkerCount : ℕ
  depth : Option ℚ
  deriving DecidableEq, Repr

/-- A grayscale frame: `width`, `height` and the RGBA byte array `data`,
modelled as a total function (out-of-range reads give 0, per `|| 0`). -/
structure Frame where
  width : ℤ
  height : ℤ
  data : ℤ → ℤ

/-- Optional per-pixel depth information (`depthData.data` with its length). -/
structure DepthData where
  len : ℕ
  ddata : ℕ → ℚ

/-- A correspondence `{prev, curr, score}` produced by the tracker. -/
structure Match where
  prev : Feature
  curr : P2
  score : ℤ
  deriving DecidableEq, Repr

/-- A pose delta `{dx, dy, dHeading}`. -/
structure Delta where
  dx : ℚ
  dy : ℚ
  dHeading : ℚ
  deriving DecidableEq, Repr

/-- A pose `{x, y, heading}`. -/
structure Pose where
  x : ℚ
  y : ℚ
  heading : ℚ
  deriving DecidableEq, Repr

/-- A map landmark `{id, x, y, quality}`. -/
structure Landmark where
  id : ℚ
  x : ℚ
  y : ℚ
  quality : ℚ
  deriving DecidableEq, Repr

/-- The per-cycle mutable state of the pipeline: pose, trajectory, landmark
map and the previous-frame cache (`prevFrameRef` / `prevFeaturesRef`). -/
structure SlamState where
  pose : Pose
  trajectory : List (ℚ × ℚ)
  landmarks : List Landmark
  prevFrame : Option Frame
  prevFeatures : Option (List Feature)

/-! ### FeatureDetector (`extractFeatures`) -/

/-- The fixed intensity threshold (`const threshold = 20`). -/
def threshold : ℤ := 20

/-- The 16-point circular offset ring (`const circle = [...]`), entries `(dx, dy)`. -/
def circle : List (ℤ × ℤ) :=
  [(-3, 0), (-3, 1), (-2, 2), (-1, 3), (0, 3), (1, 3), (2, 2), (3, 1),
   (3, 0), (3, -1), (2, -2), (1, -3), (0, -3), (-1, -3), (-2, -2), (-3, -1)]

/-- `centerIdx = y * width + x`. -/
def centerIdx (fr : Frame) (x y : ℤ) : ℤ := y * fr.width + x

/-- `data[centerIdx * 4]`. -/
def centerIntensity (fr : Frame) (x y : ℤ) : ℤ := fr.data (centerIdx fr x y * 4)

/-- `data[((y + dy) * width + (x + dx)) * 4]` for a ring offset. -/
def ringIntensity (fr : Frame) (x y : ℤ) (o : ℤ × ℤ) : ℤ :=
  fr.data (((y + o.2) * fr.width + (x + o.1)) * 4)

/-- Number of ring points strictly brighter than center + threshold. -/
def brighterCount (fr : Frame) (x y : ℤ) : ℕ :=
  (circle.filter (fun o => decide (centerIntensity fr x y + threshold < ringIntensity fr x y o))).length

/-- Number of ring points strictly darker than center - threshold. -/
def darkerCount (fr : Frame) (x y : ℤ) : ℕ :=
  (circle.filter (fun o => decide (ringIntensity fr x y o < centerIntensity fr x y - threshold))).length

/-- The positions visited by `for (let v = 10; v < dim - 10; v += 3)`. -/
def scanPositions (dim : ℤ) : List ℤ :=
  ((List.range dim.toNat).map (fun n => (n : ℤ))).filter
    (fun v => decide (10 ≤ v ∧ v < dim - 10 ∧ (v - 10) % 3 = 0))

/-- All scanned `(x, y)` sample points, outer loop over `y`, inner over `x`. -/
def scanPairs (fr : Frame) : List (ℤ × ℤ) :=
  (scanPositions fr.height).flatMap (fun y => (scanPositions fr.width).map (fun x => (x, y)))

/-- Depth lookup for a candidate (`depthData.data[depthIdx]` when in range). -/
def candDepth (fr : Frame) (dd : Option DepthData) (x y : ℤ) : Option ℚ :=
  match dd with
  | none => none
  | some d => if (centerIdx fr x y).toNat < d.len then some (d.ddata (centerIdx fr x y).toNat) else none

/-- NMS grid cell size (`const gridSize = 6`). -/
def gridSize : ℤ := 6

/-- `gridKey` = `(Math.floor(x / 6), Math.floor(y / 6))`; scanned coordinates
are nonnegative, so integer division agrees with `Math.floor`. -/
def gridKey (x y : ℤ) : ℤ × ℤ := (x / gridSize, y / gridSize)

/-- Non-maximum suppression update of the string-keyed `grid` object:
replace the cell's entry only when the new score is strictly larger, keeping
JS object insertion order (a replaced key keeps its position). -/
def gridInsert : List ((ℤ × ℤ) × Cand) → (ℤ × ℤ) → Cand → List ((ℤ × ℤ) × Cand)
  | [], k, c => [(k, c)]
  | (k', c') :: t, k, c =>
      if k' = k then (if c'.score < c.score then (k, c) :: t else (k', c') :: t)
      else (k', c') :: gridInsert t k c

/-- One sample point of the detection scan: record a candidate when at least
12 ring points are brighter or at least 12 are darker, with NMS per grid cell. -/
def scanStep (fr : Frame) (dd : Option DepthData) (g : List ((ℤ × ℤ) × Cand)) (p : ℤ × ℤ) :
    List ((ℤ × ℤ) × Cand) :=
  let b := brighterCount fr p.1 p.2
  let d := darkerCount fr p.1 p.2
  if 12 ≤ b ∨ 12 ≤ d then
    gridInsert g (gridKey p.1 p.2) ⟨p.1, p.2, max b d, b, d, candDepth fr dd p.1 p.2⟩
  else g

/-- The detection scan over all sample points. -/
def scanCands (fr : Frame) (dd : Option DepthData) : List ((ℤ × ℤ) × Cand) :=
  (scanPairs fr).foldl (scanStep fr dd) []

/-- `rawFeatures`: the grid's values in insertion order (`for key in grid`). -/
def rawFeatures (fr : Frame) (dd : Option DepthData) : List Cand :=
  (scanCands fr dd).map (·.2)

/-- Cluster cell size (`const clusterSize = 35`). -/
def clusterSize : ℤ := 35

/-- Cluster key of a candidate (coordinates nonnegative, so `/` = `Math.floor`). -/
def clusterKey (c : Cand) : ℤ × ℤ := (c.x / clusterSize, c.y / clusterSize)

/-- Size of the cluster a candidate belongs to (`clusterMap.get(key).length`). -/
def clusterDensity (raws : List Cand) (c : Cand) : ℕ :=
  (raws.filter (fun c' => decide (clusterKey c' = clusterKey c))).length

/-- The distinct cluster keys (`clusterMap` keys). -/
def clusterKeys (raws : List Cand) : List (ℤ × ℤ) := (raws.map clusterKey).dedup

/-- The multiset of cluster sizes (`clusterSizes`). -/
def clusterSizes (raws : List Cand) : List ℕ :=
  (clusterKeys raws).map (fun k => (raws.filter (fun c => decide (clusterKey c = k))).length)

/-- `clusterSizes[Math.floor(len / 2)] || 1` after an ascending sort; the
`getD` default 0 stands for `undefined`, and `|| 1` maps both falsy values to 1. -/
def medianClusterSize (raws : List Cand) : ℚ :=
  let s := ((clusterSizes raws).insertionSort (· ≤ ·)).getD ((clusterSizes raws).length / 2) 0
  if s = 0 then 1 else (s : ℚ)

/-- `totalFeatures / Math.max(clusterMap.size, 1)`; the sizes sum to the
number of raw features. -/
def avgClusterSize (raws : List Cand) : ℚ :=
  (raws.length : ℚ) / ((max (clusterKeys raws).length 1 : ℕ) : ℚ)

/-- `Math.max(2.5, avgClusterSize * 1.4)`. -/
def obstacleDensityThreshold (raws : List Cand) : ℚ :=
  max (5/2) (avgClusterSize raws * (7/5))

/-- Rule 1, depth-based: `depth < 1.8`, or `0.5 < depth < 4.0` with cluster
density at least 2. -/
def ruleDepth (raws : List Cand) (c : Cand) : Bool :=
  match c.depth with
  | some dp => decide (dp < 9/5 ∨ (1/2 < dp ∧ dp < 4 ∧ 2 ≤ clusterDensity raws c))
  | none => false

/-- Rule 2, dense clusters: `clusterDensity >= obstacleDensityThreshold * 1.1`. -/
def ruleDense (raws : List Cand) (c : Cand) : Bool :=
  decide (obstacleDensityThreshold raws * (11/10) ≤ (clusterDensity raws c : ℚ))

/-- Rule 3, high-contrast edges: `score >= 15 && |brighterCount - darkerCount| <= 2`. -/
def ruleHighContrast (c : Cand) : Bool :=
  decide (15 ≤ c.score ∧ |(c.brighterCount : ℤ) - (c.darkerCount : ℤ)| ≤ 2)

/-- Rule 4, center-frame features in the 30-70% x 20-80% region with density
at least `medianClusterSize * 1.4`. -/
def ruleCenter (fr : Frame) (raws : List Cand) (c : Cand) : Bool :=
  decide ((fr.width : ℚ) * (3/10) < (c.x : ℚ) ∧ (c.x : ℚ) < (fr.width : ℚ) * (7/10) ∧
    (fr.height : ℚ) * (1/5) < (c.y : ℚ) ∧ (c.y : ℚ) < (fr.height : ℚ) * (4/5) ∧
    medianClusterSize raws * (7/5) ≤ (clusterDensity raws c : ℚ))

/-- Rule 5, strong corners: `score >= 16`. -/
def ruleStrong (c : Cand) : Bool := decide (16 ≤ c.score)

/-- Rule 6, anomalous density: `clusterDensity > medianClusterSize * 2.2`. -/
def ruleAnomaly (raws : List Cand) (c : Cand) : Bool :=
  decide (medianClusterSize raws * (11/5) < (clusterDensity raws c : ℚ))

/-- The classification: the source's guarded if-chain is equivalent to the
disjunction of its independent guards. -/
def isObstacle (fr : Frame) (raws : List Cand) (c : Cand) : Bool :=
  ruleDepth raws c || ruleDense raws c || ruleHighContrast c ||
    ruleCenter fr raws c || ruleStrong c || ruleAnomaly raws c

/-- The feature cap (`features.slice(0, 1500)`). -/
def maxFeatures : ℕ := 1500

/-- `extractFeatures(frameData, depthData)`: keep only obstacle-classified
candidates, in detection order, capped at 1500. -/
def extractFeatures (fr : Frame) (dd : Option DepthData) : List Feature :=
  let raws := rawFeatures fr dd
  ((raws.filter (fun c => isObstacle fr raws c)).map
    (fun c => ⟨c.x, c.y, c.score, c.depth⟩)).take maxFeatures

/-! ### DescriptorPatch (`computeDescriptor`) and FeatureTracker (`trackFeatures`) -/

/-- `computeDescriptor`: the 7x7 patch (patchSize 3) around `(x, y)`, row-major;
out-of-range samples read 0 (`data[idx] || 0`). -/
def computeDescriptor (fr : Frame) (x y : ℤ) : List ℤ :=
  (List.range 7).flatMap (fun dy =>
    (List.range 7).map (fun dx =>
      fr.data (((y + ((dy : ℤ) - 3)) * fr.width + (x + ((dx : ℤ) - 3))) * 4)))

/-- Sum of squared differences of two descriptors. -/
def ssd (a b : List ℤ) : ℤ :=
  (a.zip b).foldl (fun s p => s + (p.1 - p.2) * (p.1 - p.2)) 0

/-- Offsets visited by `for (d = -20; d <= 20; d += 3)`: `-20, -17, ..., 19`. -/
def searchOffsets : List ℤ := (List.range 14).map (fun k => -20 + 3 * (k : ℤ))

/-- The exhaustive window search for the minimum-SSD candidate around a
previous feature location, skipping candidates inside the border margin;
`none` plays the role of the initial `bestScore = Infinity`. -/
def bestCandidate (prevDesc : List ℤ) (cf : Frame) (px py : ℤ) : Option (P2 × ℤ) :=
  (searchOffsets.flatMap (fun dy => searchOffsets.map (fun dx => (dx, dy)))).foldl
    (fun best o =>
      let cx := px + o.1
      let cy := py + o.2
      if cx < 10 ∨ cf.width - 10 ≤ cx ∨ cy < 10 ∨ cf.height - 10 ≤ cy then best
      else
        let s := ssd prevDesc (computeDescriptor cf cx cy)
        match best with
        | none => some (⟨cx, cy⟩, s)
        | some (_, bs) => if s < bs then some (⟨cx, cy⟩, s) else best)
    none

/-- `sampleStep = Math.max(1, Math.floor(prevFeatures.length / 300))`. -/
def sampleStep (n : ℕ) : ℕ := max 1 (n / 300)

/-- Junk default feature for total list indexing. -/
def dFeat : Feature := ⟨0, 0, 0, none⟩

/-- The subset of previous features visited by
`for (let i = 0; i < prevFeatures.length; i += sampleStep)`. -/
def sampledFeatures (feats : List Feature) : List Feature :=
  ((List.range feats.length).filter (fun i => decide (i % sampleStep feats.length = 0))).map
    (fun i => feats.getD i dFeat)

/-- The SSD acceptance threshold (`bestScore < 3000`). -/
def matchAcceptThreshold : ℤ := 3000

/-- `trackFeatures(prevFrame, currFrame, prevFeatures)`. -/
def trackFeatures (prevFrame currFrame : Frame) (prevFeatures : List Feature) : List Match :=
  (sampledFeatures prevFeatures).filterMap (fun pf =>
    match bestCandidate (computeDescriptor prevFrame pf.x pf.y) currFrame pf.x pf.y with
    | none => none
    | some (bm, bs) => if bs < matchAcceptThreshold then some ⟨pf, bm, bs⟩ else none)

/-! ### MotionEstimator (`estimatePose`) -/

/-- `const pixelToMeter = 0.001`. -/
def pixelToMeter : ℚ := 1/1000

/-- The rotation-outlier magnitude bound (`Math.abs(dAngle) < 0.5`). -/
def maxRotationDelta : ℚ := 1/2

/-- The source's two sequential normalization steps:
`if (dAngle > PI) dAngle -= 2*PI; if (dAngle < -PI) dAngle += 2*PI;`
with `pz` standing for `Math.PI`. -/
def codeNormAngle (pz d : ℚ) : ℚ :=
  let d1 := if pz < d then d - 2 * pz else d
  if d1 < -pz then d1 + 2 * pz else d1

/-- `angle2 - angle1` about the fixed optical center `(320, 240)`,
with `az` standing for `Math.atan2`. -/
def rawAngleDiff (az : ℤ → ℤ → ℚ) (m : Match) : ℚ :=
  az (m.curr.y - 240) (m.curr.x - 320) - az (m.prev.y - 240) (m.prev.x - 320)

/-- The normalized angular difference of one match as the source computes it. -/
def codeAngleOf (az : ℤ → ℤ → ℚ) (pz : ℚ) (m : Match) : ℚ :=
  codeNormAngle pz (rawAngleDiff az m)

/-- One iteration of the rotation loop: accumulate `(rotationSum, rotationCount)`
over the differences within the magnitude bound. -/
def rotStep (p : ℚ × ℕ) (d : ℚ) : ℚ × ℕ :=
  if |d| < maxRotationDelta then (p.1 + d, p.2 + 1) else p

/-- `estimatePose(matches)`: zero delta below 5 correspondences; otherwise the
per-axis sorted-middle displacement (scaled, x negated) and the filtered-mean
rotation.  The source sorts the displacement-pair array in place first by `dx`
then by `dy` and reads one projection of one index after each sort, so sorting
the original list per axis is the same computation. -/
def estimatePose (az : ℤ → ℤ → ℚ) (pz : ℚ) (ms : List Match) : Delta :=
  if ms.length < 5 then ⟨0, 0, 0⟩ else
    let displacements := ms.map (fun m => (m.curr.x - m.prev.x, m.curr.y - m.prev.y))
    let medianDx := ((displacements.insertionSort (fun a b => a.1 ≤ b.1)).getD
      (displacements.length / 2) (0, 0)).1
    let medianDy := ((displacements.insertionSort (fun a b => a.2 ≤ b.2)).getD
      (displacements.length / 2) (0, 0)).2
    let rot := ms.foldl (fun p m => rotStep p (codeAngleOf az pz m)) (0, 0)
    let dHeading := if 0 < rot.2 then rot.1 / (rot.2 : ℚ) else 0
    ⟨-(medianDx : ℚ) * pixelToMeter, (medianDy : ℚ) * pixelToMeter, dHeading⟩

/-- `fuseIMU(visualPose, dt)`: visual odometry only, the identity. -/
def fuseIMU (visualPose : Delta) (dt : ℚ) : Delta := visualPose

/-! ### LandmarkMap (`updateMap`) -/

/-- `const maxLandmarks = 500`. -/
def maxLandmarks : ℕ := 500

/-- `const matchThreshold = 10` (pixels). -/
def matchThreshold : ℚ := 10

/-- The world-coordinate projection used by `updateMap`:
`worldX = pose.x + feat.x * 0.001 * cos(heading)`,
`worldY = pose.y + feat.x * 0.001 * sin(heading)`,
with `cosF`/`sinF` standing for `Math.cos`/`Math.sin`. -/
def projectFeature (cosF sinF : ℚ → ℚ) (currentPose : Pose) (feat : Feature) : ℚ × ℚ :=
  (currentPose.x + (feat.x : ℚ) * pixelToMeter * cosF currentPose.heading,
   currentPose.y + (feat.x : ℚ) * pixelToMeter * sinF currentPose.heading)

/-- `Math.hypot(lm.x - worldX, lm.y - worldY) < matchThreshold * 0.001`,
rendered sqrt-free. -/
def closeTo (lm : Landmark) (w : ℚ × ℚ) : Bool :=
  decide ((lm.x - w.1)^2 + (lm.y - w.2)^2 < (matchThreshold * pixelToMeter)^2)

/-- The quality-weighted fusion of a matched landmark with an observation,
with quality incremented up to the cap 10. -/
def fuseLandmark (lm : Landmark) (w : ℚ × ℚ) : Landmark :=
  { lm with
    x := (lm.x * lm.quality + w.1) / (lm.quality + 1),
    y := (lm.y * lm.quality + w.2) / (lm.quality + 1),
    quality := min (lm.quality + 1) 10 }

/-- Scan the landmark list for the first one within the match distance and
fuse it (the source's `for` loop with `break`); `none` if no landmark matches. -/
def fuseFirst : List Landmark → (ℚ × ℚ) → Option (List Landmark)
  | [], _ => none
  | lm :: rest, w =>
      if closeTo lm w then some (fuseLandmark lm w :: rest)
      else (fuseFirst rest w).map (lm :: ·)

/-- The body of `updateMap`'s `features.forEach`: fuse the feature's world
projection into the first close landmark, else insert a fresh landmark
(quality 1) while below the cap.  The second state component counts the
insertions made so far in this call. -/
def updateMapStep (cosF sinF : ℚ → ℚ) (ids : ℕ → ℚ) (currentPose : Pose)
    (st : List Landmark × ℕ) (feat : Feature) : List Landmark × ℕ :=
  let w := projectFeature cosF sinF currentPose feat
  match fuseFirst st.1 w with
  | some l' => (l', st.2)
  | none =>
      if st.1.length < maxLandmarks then (st.1 ++ [⟨ids st.2, w.1, w.2, 1⟩], st.2 + 1)
      else st

/-- `updateMap(landmarks, features, currentPose)`: fold over the features.
`ids k` stands for the value of `Date.now() + Math.random()` at the call's
k-th insertion. -/
def updateMap (cosF sinF : ℚ → ℚ) (ids : ℕ → ℚ) (landmarks : List Landmark)
    (features : List Feature) (currentPose : Pose) : List Landmark :=
  (features.foldl (updateMapStep cosF sinF ids currentPose) (landmarks, 0)).1

/-! ### OdometryPipeline (`processSLAMFrame`, `handleReset`) -/

/-- The tracking step of a cycle: the tracker runs only when both the
previous frame and the previous features are cached. -/
def cycleMatches (s : SlamState) (fr : Frame) : List Match :=
  match s.prevFrame, s.prevFeatures with
  | some pf, some pfs => trackFeatures pf fr pfs
  | _, _ => []

/-- The pose delta a cycle integrates: the source guards the estimator call
with `if (matches.length > 5)`, else the initial zero delta stands. -/
def appliedDelta (az : ℤ → ℤ → ℚ) (pz : ℚ) (ms : List Match) (dt : ℚ) : Delta :=
  if 5 < ms.length then fuseIMU (estimatePose az pz ms) dt else ⟨0, 0, 0⟩

/-- The trajectory cap (`newTrajectory.length > 500` drops the oldest point). -/
def maxTrajectory : ℕ := 500

/-- The per-cycle core of `processSLAMFrame` (rendering and timing omitted):
extract, track, estimate, integrate, append to the trajectory, update the
map, and cache the current frame and features. -/
def processSLAMFrame (az : ℤ → ℤ → ℚ) (pz : ℚ) (cosF sinF : ℚ → ℚ) (ids : ℕ → ℚ)
    (dt : ℚ) (s : SlamState) (fr : Frame) (dd : Option DepthData) : SlamState :=
  let features := extractFeatures fr dd
  let poseDelta := appliedDelta az pz (cycleMatches s fr) dt
  let newPose : Pose :=
    ⟨s.pose.x + poseDelta.dx, s.pose.y + poseDelta.dy, s.pose.heading + poseDelta.dHeading⟩
  let t1 := s.trajectory ++ [(newPose.x, newPose.y)]
  let t2 := if maxTrajectory < t1.length then t1.drop 1 else t1
  ⟨newPose, t2, updateMap cosF sinF ids s.landmarks features newPose, some fr, some features⟩

/-- The initial state (the refs' initial values). -/
def initialState : SlamState := ⟨⟨0, 0, 0⟩, [(0, 0)], [], none, none⟩

/-- `handleReset`: pose to origin, trajectory to a single origin point,
landmarks cleared, previous-frame cache cleared. -/
def handleReset (s : SlamState) : SlamState := ⟨⟨0, 0, 0⟩, [(0, 0)], [], none, none⟩

/-! ### Specification-side definitions

These transcribe sentences of the specification (not the source), to be
compared with the source-derived definitions above. -/

/-- The spec's "exact per-axis median": middle element of the sorted values
for an odd count, mean of the two middle elements for an even count. -/
def specMedian (l : List ℤ) : ℚ :=
  let s := l.insertionSort (· ≤ ·)
  if l.length % 2 = 1 then (s.getD (l.length / 2) 0 : ℚ)
  else ((s.getD (l.length / 2 - 1) 0 : ℚ) + (s.getD (l.length / 2) 0 : ℚ)) / 2

/-- The element at index `⌊n/2⌋` of the sorted values: the exact median for
odd counts, the upper of the two middle values for even counts. -/
def upperMedian (l : List ℤ) : ℤ := (l.insertionSort (· ≤ ·)).getD (l.length / 2) 0

/-- The spec's normalization of an angular difference to `(-π, π]`
(for differences of two angles drawn from `(-π, π]`). -/
def specNormAngle (pz d : ℚ) : ℚ :=
  if d ≤ -pz then d + 2 * pz else if pz < d then d - 2 * pz else d

/-- The spec's rotation survivors: per-match signed angular differences about
the optical center, normalized to `(-π, π]`, of magnitude below the bound. -/
def specSurvivors (az : ℤ → ℤ → ℚ) (pz : ℚ) (ms : List Match) : List ℚ :=
  (ms.map (fun m => specNormAngle pz (rawAngleDiff az m))).filter
    (fun d => decide (|d| < maxRotationDelta))

/-- The spec's rotation estimate: the arithmetic mean of the survivors,
zero when none survive. -/
def specRotMean (az : ℤ → ℤ → ℚ) (pz : ℚ) (ms : List Match) : ℚ :=
  if (specSurvivors az pz ms).length = 0 then 0
  else (specSurvivors az pz ms).sum / ((specSurvivors az pz ms).length : ℚ)

/-- The spec's landmark projection: the pixel offset `(x, y)` rotated by the
current heading, scaled by the pixel-to-metric factor, added to the pose. -/
def specProjectRot (cosF sinF : ℚ → ℚ) (currentPose : Pose) (feat : Feature) : ℚ × ℚ :=
  (currentPose.x + pixelToMeter *
     ((feat.x : ℚ) * cosF currentPose.heading - (feat.y : ℚ) * sinF currentPose.heading),
   currentPose.y + pixelToMeter *
     ((feat.x : ℚ) * sinF currentPose.heading + (feat.y : ℚ) * cosF currentPose.heading))

/-! ### Concrete evaluation inputs -/

/-- A trivial stand-in for `Math.atan2` (constantly zero, range inside `(-π, π]`). -/
def az0 : ℤ → ℤ → ℚ := fun _ _ => 0

/-- Build a correspondence from previous and current pixel coordinates. -/
def mkMatch (px py cx cy : ℤ) : Match := ⟨⟨px, py, 0, none⟩, ⟨cx, cy⟩, 0⟩

/-- Five correspondences, all displaced by `(+10, 0)`. -/
def exA : List Match :=
  [mkMatch 0 0 10 0, mkMatch 1 0 11 0, mkMatch 2 0 12 0, mkMatch 3 0 13 0, mkMatch 4 0 14 0]

/-- Six correspondences with x-displacements `0, 0, 0, 1, 1, 1`. -/
def exB : List Match :=
  [mkMatch 0 0 0 0, mkMatch 0 1 0 1, mkMatch 0 2 0 2,
   mkMatch 0 3 1 3, mkMatch 0 4 1 4, mkMatch 0 5 1 5]

/-- Three correspondences (below every threshold). -/
def exC : List Match := [mkMatch 0 0 0 0, mkMatch 0 0 0 0, mkMatch 0 0 0 0]

/-- 301 previous features, one more than the intended sampling cap. -/
def feats301 : List Feature := List.replicate 301 dFeat

/-- A 27x27 frame, intensity 100 everywhere except 0 at pixel `(13, 13)`
(byte index `((13 * 27 + 13) * 4 = 1456`): a single isolated dark corner. -/
def frame27 : Frame := ⟨27, 27, fun i => if i = 1456 then 0 else 100⟩

/-- The feature the detector finds in `frame27`. -/
def feat13 : Feature := ⟨13, 13, 16, none⟩

/-- The candidate the detection scan records in `frame27`. -/
def cand13 : Cand := ⟨13, 13, 16, 16, 0, none⟩

/-- A one-landmark map with quality 1. -/
def L0 : List Landmark := [⟨5, 0, 0, 1⟩]

/-- One feature at pixel x = 0 (projects onto the `L0` landmark at the origin). -/
def F0 : List Feature := [⟨0, 0, 16, none⟩]

/-- The origin pose. -/
def pose0 : Pose := ⟨0, 0, 0⟩

/-- Stand-in for `Math.cos` agreeing with it at heading 0. -/
def cos1 : ℚ → ℚ := fun _ => 1

/-- Stand-in for `Math.sin` agreeing with it at heading 0. -/
def sin0 : ℚ → ℚ := fun _ => 0

/-- An id oracle for `Date.now() + Math.random()` returning the same value
twice (same millisecond, equal random draws). -/
def ids7 : ℕ → ℚ := fun _ => 7

/-- A feature projecting to world `(0, 0)` at the origin pose. -/
def fA : Feature := ⟨0, 0, 16, none⟩

/-- A feature projecting to world `(1, 0)` at the origin pose. -/
def fB : Feature := ⟨1000, 0, 16, none⟩

/-- Junk default landmark for total list indexing. -/
def dLm : Landmark := ⟨0, 0, 0, 0⟩

/-- An empty 0x0 frame. -/
def frame0 : Frame := ⟨0, 0, fun _ => 0⟩

/-! ## Theorems -/

/-! ### C2: the correspondence-count gate of the integrated delta -/

/-- C2, counterexample: with exactly 5 correspondences (displaced by +10px in
x) the cycle integrates a zero delta although the estimator's delta is
nonzero, so the claimed "5 or more" gate does not describe the code. -/
theorem c2_counterexample :
    appliedDelta az0 4 exA 0 = ⟨0, 0, 0⟩ ∧ estimatePose az0 4 exA ≠ ⟨0, 0, 0⟩ := by
  constructor
  · norm_num [appliedDelta, exA]
  · norm_num [estimatePose, exA, mkMatch, az0, List.insertionSort, List.orderedInsert,
      pixelToMeter, maxRotationDelta, codeNormAngle, rawAngleDiff, Delta.mk.injEq]

/-- C2 (amended): the delta integrated into the pose each cycle is zero for
at most 5 correspondences, and is the motion estimator's delta only for
strictly more than 5; the cycle adds exactly that delta to the pose. -/
theorem c2_theorem (az : ℤ → ℤ → ℚ) (pz : ℚ) (cosF sinF : ℚ → ℚ) (ids : ℕ → ℚ)
    (dt : ℚ) (ms : List Match) (s : SlamState) (fr : Frame) (dd : Option DepthData) :
    (ms.length ≤ 5 → appliedDelta az pz ms dt = ⟨0, 0, 0⟩) ∧
    (5 < ms.length → appliedDelta az pz ms dt = estimatePose az pz ms) ∧
    (processSLAMFrame az pz cosF sinF ids dt s fr dd).pose =
      ⟨s.pose.x + (appliedDelta az pz (cycleMatches s fr) dt).dx,
       s.pose.y + (appliedDelta az pz (cycleMatches s fr) dt).dy,
       s.pose.heading + (appliedDelta az pz (cycleMatches s fr) dt).dHeading⟩ := by
  refine ⟨fun h => ?_, fun h => ?_, rfl⟩
  · simp [appliedDelta, Nat.not_lt.mpr h]
  · simp [appliedDelta, h, fuseIMU]

/-- C2, witness: the amended gate evaluated at 3 and at 6 correspondences. -/
theorem c2_witness :
    appliedDelta az0 4 exC 0 = ⟨0, 0, 0⟩ ∧ appliedDelta az0 4 exB 0 = estimatePose az0 4 exB :=
  ⟨(c2_theorem az0 4 cos1 sin0 ids7 0 exC initialState frame0 none).1 (by decide),
   (c2_theorem az0 4 cos1 sin0 ids7 0 exB initialState frame0 none).2.1 (by decide)⟩

/-! ### C3: the landmark projection -/

/-- C3, counterexample: at heading 0 (where the trigonometric stand-ins agree
with `Math.cos`/`Math.sin`) the source's world projection of the feature at
pixel `(10, 20)` differs from the spec's rotation of the full `(x, y)` pixel
offset: the y pixel coordinate is ignored. -/
theorem c3_counterexample :
    projectFeature cos1 sin0 pose0 ⟨10, 20, 16, none⟩ ≠
      specProjectRot cos1 sin0 pose0 ⟨10, 20, 16, none⟩ := by
  norm_num [projectFeature, specProjectRot, cos1, sin0, pose0, pixelToMeter, Prod.ext_iff]

/-- C3 (amended): the update projects using only the feature's x pixel
coordinate: the result equals the spec's rotated projection applied to the
offset `(x, 0)`, and is independent of the feature's y pixel coordinate. -/
theorem c3_theorem (cosF sinF : ℚ → ℚ) (currentPose : Pose) (f : Feature) :
    projectFeature cosF sinF currentPose f =
      specProjectRot cosF sinF currentPose ⟨f.x, 0, f.score, f.depth⟩ ∧
    projectFeature cosF sinF currentPose f =
      projectFeature cosF sinF currentPose ⟨f.x, 0, f.score, f.depth⟩ := by
  refine ⟨?_, rfl⟩
  unfold projectFeature specProjectRot
  simp only [Prod.mk.injEq]
  constructor <;> ring

/-! ### C9: landmark identifiers -/

/-- C9: landmark ids come from `Date.now() + Math.random()`, not a monotonic
counter.  With an id oracle returning the same value for both insertions of
one update (same millisecond, equal random draws) two distinct landmarks
receive the same id, so uniqueness is not guaranteed by construction. -/
theorem c9_theorem :
    (updateMap cos1 sin0 ids7 [] [fA, fB] pose0).length = 2 ∧
    ((updateMap cos1 sin0 ids7 [] [fA, fB] pose0).getD 0 dLm).id =
      ((updateMap cos1 sin0 ids7 [] [fA, fB] pose0).getD 1 dLm).id := by
  norm_num [updateMap, updateMapStep, fuseFirst, closeTo, projectFeature, fA, fB, pose0,
    cos1, sin0, ids7, pixelToMeter, matchThreshold, maxLandmarks, fuseLandmark, dLm]

/-! ### C5: the tracker's sampling cap -/

/-- The number of multiples of `s` below `n`. -/
theorem length_filter_mod (n s : ℕ) (hs : 1 ≤ s) :
    ((List.range n).filter (fun i => decide (i % s = 0))).length = (n + s - 1) / s := by
  induction n with
  | zero =>
      simp only [List.range_zero, List.filter_nil, List.length_nil, Nat.zero_add]
      exact (Nat.div_eq_of_lt (by omega)).symm
  | succ n ih =>
      rw [List.range_succ, List.filter_append, List.length_append, ih]
      have h1 : n + 1 + s - 1 = (n + s - 1) + 1 := by omega
      have h3 : n + s - 1 + 1 = n + s := by omega
      rw [h1, Nat.succ_div, h3]
      by_cases hd : n % s = 0
      · have hdvd : s ∣ n + s := dvd_add (Nat.dvd_of_mod_eq_zero hd) (dvd_refl s)
        simp [hd, hdvd]
      · have hdvd : ¬ s ∣ n + s := by
          intro hc
          have hn : s ∣ n := by
            have := Nat.dvd_sub' hc (dvd_refl s)
            simpa using this
          exact hd (Nat.mod_eq_zero_of_dvd hn)
        simp [hd, hdvd]

/-- C5, counterexample: with 301 previous features the sampling stride is 1
and all 301 features are sampled and given a matching attempt. -/
theorem c5_counterexample : (sampledFeatures feats301).length = 301 := by decide

/-- C5 (amended): the stride `max(1, ⌊n/300⌋)` caps the number of sampled
(and match-attempted) previous features at 599 — not 300: all `n` features
are processed when `n < 600`, and at most 450 when `n ≥ 600`; the returned
correspondences never outnumber the sampled features. -/
theorem c5_theorem (feats : List Feature) (pf cf : Frame) :
    (sampledFeatures feats).length ≤ 599 ∧
    (trackFeatures pf cf feats).length ≤ (sampledFeatures feats).length := by
  constructor
  · have hs : 1 ≤ sampleStep feats.length := by unfold sampleStep; omega
    have hlen : (sampledFeatures feats).length =
        (feats.length + sampleStep feats.length - 1) / sampleStep feats.length := by
      unfold sampledFeatures
      rw [List.length_map, length_filter_mod _ _ hs]
    by_cases h : feats.length < 600
    · have hle : (sampledFeatures feats).length ≤ feats.length := by
        unfold sampledFeatures
        rw [List.length_map]
        exact le_trans (List.length_filter_le _ _) (by rw [List.length_range])
      omega
    · have h6 : 600 ≤ feats.length := by omega
      have hstep : sampleStep feats.length = feats.length / 300 := by
        unfold sampleStep; omega
      rw [hlen, hstep]
      have hlt : (feats.length + feats.length / 300 - 1) / (feats.length / 300) < 600 := by
        rw [Nat.div_lt_iff_lt_mul (by omega)]
        omega
      omega
  · unfold trackFeatures
    exact List.length_filterMap_le _ _

/-! ### C1: the translation estimate -/

/-- Mapping a key projection commutes with `orderedInsert` by that key. -/
theorem map_orderedInsert_key (f : ℤ × ℤ → ℤ) (a : ℤ × ℤ) (l : List (ℤ × ℤ)) :
    (List.orderedInsert (fun p q => f p ≤ f q) a l).map f
      = List.orderedInsert (· ≤ ·) (f a) (l.map f) := by
  induction l with
  | nil => rfl
  | cons b t ih =>
      by_cases h : f a ≤ f b
      · simp [List.orderedInsert, h]
      · simp [List.orderedInsert, h, ih]

/-- Mapping a key projection commutes with `insertionSort` by that key. -/
theorem map_insertionSort_key (f : ℤ × ℤ → ℤ) (l : List (ℤ × ℤ)) :
    (l.insertionSort (fun p q => f p ≤ f q)).map f = (l.map f).insertionSort (· ≤ ·) := by
  induction l with
  | nil => rfl
  | cons b t ih => simp [List.insertionSort, map_orderedInsert_key, ih]

/-- `getD` after `map` projects the defaulted element. -/
theorem getD_map_proj (f : ℤ × ℤ → ℤ) (l : List (ℤ × ℤ)) (n : ℕ) (d : ℤ × ℤ) :
    (l.map f).getD n (f d) = f (l.getD n d) := by
  rw [List.getD_eq_getD_get?, List.getD_eq_getD_get?, List.get?_map]
  cases l.get? n <;> rfl

/-- The sorted-by-key pair element projects to the sorted-values element. -/
theorem median_key_proj (f : ℤ × ℤ → ℤ) (l : List (ℤ × ℤ)) (hf : f (0, 0) = 0) :
    f ((l.insertionSort (fun p q => f p ≤ f q)).getD (l.length / 2) (0, 0))
      = upperMedian (l.map f) := by
  rw [upperMedian, List.length_map, ← map_insertionSort_key, ← hf, getD_map_proj, hf]

/-- C1, counterexample: for six correspondences with x-displacements
`0, 0, 0, 1, 1, 1` the code returns `-1/1000` in x while the exact per-axis
median (`1/2`) would give `-1/2000`: for even counts the translation is not
the exact median. -/
theorem c1_counterexample :
    (estimatePose az0 4 exB).dx ≠
      -(specMedian (exB.map (fun m => m.curr.x - m.prev.x))) * pixelToMeter := by
  norm_num [estimatePose, specMedian, exB, mkMatch, az0, List.insertionSort,
    List.orderedInsert, pixelToMeter]

/-- C1 (amended): for at least 5 correspondences the returned translation is,
per axis, the element at index `⌊n/2⌋` of the sorted per-match displacements
(current minus previous), scaled by the pixel-to-metric factor with the
x-component negated; for odd counts that element is the exact median. -/
theorem c1_theorem (az : ℤ → ℤ → ℚ) (pz : ℚ) (ms : List Match) (h : 5 ≤ ms.length) :
    (estimatePose az pz ms).dx =
      -(upperMedian (ms.map (fun m => m.curr.x - m.prev.x)) : ℚ) * pixelToMeter ∧
    (estimatePose az pz ms).dy =
      (upperMedian (ms.map (fun m => m.curr.y - m.prev.y)) : ℚ) * pixelToMeter ∧
    (ms.length % 2 = 1 →
      (upperMedian (ms.map (fun m => m.curr.x - m.prev.x)) : ℚ) =
        specMedian (ms.map (fun m => m.curr.x - m.prev.x)) ∧
      (upperMedian (ms.map (fun m => m.curr.y - m.prev.y)) : ℚ) =
        specMedian (ms.map (fun m => m.curr.y - m.prev.y))) := by
  have hlt : ¬ ms.length < 5 := by omega
  have hx : ms.map (fun m => m.curr.x - m.prev.x) =
      (ms.map (fun m => (m.curr.x - m.prev.x, m.curr.y - m.prev.y))).map Prod.fst := by
    rw [List.map_map]; rfl
  have hy : ms.map (fun m => m.curr.y - m.prev.y) =
      (ms.map (fun m => (m.curr.x - m.prev.x, m.curr.y - m.prev.y))).map Prod.snd := by
    rw [List.map_map]; rfl
  refine ⟨?_, ?_, fun hodd => ?_⟩
  · simp only [estimatePose, if_neg hlt]
    rw [hx, ← median_key_proj Prod.fst _ rfl, List.length_map]
  · simp only [estimatePose, if_neg hlt]
    rw [hy, ← median_key_proj Prod.snd _ rfl, List.length_map]
  · constructor <;>
      · simp only [upperMedian, specMedian, List.length_map]
        rw [if_pos hodd]

/-- C1, witness: the amended form evaluated on five correspondences displaced
by `(+10, 0)` (an odd count, so also the exact median). -/
theorem c1_witness :
    5 ≤ exA.length ∧
      (estimatePose az0 4 exA).dx =
        -(upperMedian (exA.map (fun m => m.curr.x - m.prev.x)) : ℚ) * pixelToMeter :=
  ⟨by decide, (c1_theorem az0 4 exA (by decide)).1⟩

/-! ### C4: the rotation estimate -/

/-- The rotation loop accumulates the sum and count of the in-bound values. -/
theorem rot_foldl_eq (l : List ℚ) (s : ℚ) (c : ℕ) :
    l.foldl rotStep (s, c)
      = (s + (l.filter (fun d => decide (|d| < maxRotationDelta))).sum,
         c + (l.filter (fun d => decide (|d| < maxRotationDelta))).length) := by
  induction l generalizing s c with
  | nil => simp
  | cons a t ih =>
      by_cases h : |a| < maxRotationDelta
      · simp only [List.foldl_cons, rotStep, if_pos h, ih, List.filter_cons,
          decide_eq_true_eq, h, if_true, List.sum_cons, List.length_cons]
        exact Prod.ext (by ring) (by omega)
      · simp only [List.foldl_cons, rotStep, if_neg h, ih, List.filter_cons,
          decide_eq_true_eq, h, if_false]

/-- The source's sequential normalization and the spec's normalization to
`(-π, π]` agree on every difference in `(-2π, 2π)` except `-π` exactly, where
both normalized values have magnitude `π ≥ 1/2` and fall to the outlier bound. -/
theorem normAngle_agree (pz d : ℚ) (hpi : 1/2 ≤ pz) (h1 : -(2*pz) < d) (h2 : d < 2*pz) :
    codeNormAngle pz d = specNormAngle pz d ∨
      (¬ |codeNormAngle pz d| < maxRotationDelta ∧ ¬ |specNormAngle pz d| < maxRotationDelta) := by
  unfold codeNormAngle specNormAngle maxRotationDelta
  by_cases hgt : pz < d
  · left
    have hne : ¬ d - 2*pz < -pz := by intro hc; linarith
    have hle : ¬ d ≤ -pz := by intro hc; linarith
    simp [hgt, hne, hle]
  · by_cases hlt : d < -pz
    · left
      simp [hgt, hlt, le_of_lt hlt]
    · by_cases heq : d = -pz
      · right
        have hp0 : (0 : ℚ) ≤ pz := by linarith
        have hgt' : ¬ pz < d := by rw [heq]; intro hc; linarith
        have hlt' : ¬ d < -pz := by rw [heq]; exact lt_irrefl _
        have hle' : d ≤ -pz := le_of_eq heq
        rw [if_neg hgt', if_neg hlt', if_pos hle', heq]
        constructor
        · rw [abs_neg, abs_of_nonneg hp0]; intro hc; linarith
        · rw [show -pz + 2*pz = pz by ring, abs_of_nonneg hp0]; intro hc; linarith
      · left
        have hle : ¬ d ≤ -pz := fun hc => heq (le_antisymm hc (not_lt.mp hlt))
        simp [hgt, hlt, hle]

/-- The code's filtered normalized differences coincide with the spec's
survivors (given the range of `atan2` and `π ≥ 1/2`). -/
theorem survivors_eq (az : ℤ → ℤ → ℚ) (pz : ℚ)
    (hrange : ∀ y x : ℤ, -pz < az y x ∧ az y x ≤ pz) (hpi : (1:ℚ)/2 ≤ pz)
    (ms : List Match) :
    (ms.map (codeAngleOf az pz)).filter (fun d => decide (|d| < maxRotationDelta))
      = specSurvivors az pz ms := by
  unfold specSurvivors
  induction ms with
  | nil => rfl
  | cons m t ih =>
      have ha1 := hrange (m.prev.y - 240) (m.prev.x - 320)
      have ha2 := hrange (m.curr.y - 240) (m.curr.x - 320)
      have h1 : -(2*pz) < rawAngleDiff az m := by unfold rawAngleDiff; linarith [ha1.2, ha2.1]
      have h2 : rawAngleDiff az m < 2*pz := by unfold rawAngleDiff; linarith [ha1.1, ha2.2]
      rcases normAngle_agree pz (rawAngleDiff az m) hpi h1 h2 with heq | ⟨hc, hs⟩
      · simp only [List.map_cons, List.filter_cons, codeAngleOf, heq, ih]
      · simp only [List.map_cons, List.filter_cons, codeAngleOf,
          decide_eq_false hc, decide_eq_false hs, Bool.false_eq_true, if_false, ih]

/-- C4: for at least 5 correspondences the returned heading delta is the
arithmetic mean of the per-match signed angular differences about the optical
center, normalized to `(-π, π]`, keeping only magnitudes below the bound 0.5,
and zero when none survive — for any `atan2` with range `(-π, π]`, `π ≥ 1/2`. -/
theorem c4_theorem (az : ℤ → ℤ → ℚ) (pz : ℚ)
    (hrange : ∀ y x : ℤ, -pz < az y x ∧ az y x ≤ pz) (hpi : (1:ℚ)/2 ≤ pz)
    (ms : List Match) (h5 : 5 ≤ ms.length) :
    (estimatePose az pz ms).dHeading = specRotMean az pz ms := by
  have hlt : ¬ ms.length < 5 := by omega
  simp only [estimatePose, if_neg hlt]
  have hfold : ms.foldl (fun p m => rotStep p (codeAngleOf az pz m)) (0, 0)
      = ((specSurvivors az pz ms).sum, (specSurvivors az pz ms).length) := by
    rw [← List.foldl_map, rot_foldl_eq, survivors_eq az pz hrange hpi ms]
    simp
  rw [hfold]
  unfold specRotMean
  by_cases hl : (specSurvivors az pz ms).length = 0
  · simp [hl]
  · simp [hl, Nat.pos_of_ne_zero hl]

/-- C4, witness: evaluated with the constant-zero `atan2` stand-in (range
inside `(-π, π]` for `π = 1`) on five correspondences. -/
theorem c4_witness :
    (1:ℚ)/2 ≤ 1 ∧ 5 ≤ exA.length ∧
      (estimatePose (fun _ _ => 0) 1 exA).dHeading = specRotMean (fun _ _ => 0) 1 exA :=
  ⟨by norm_num, by decide,
    c4_theorem (fun _ _ => 0) 1 (fun _ _ => by norm_num) (by norm_num) exA (by decide)⟩

/-! ### C8: reset semantics -/

/-- C8: after `handleReset` the pose is the origin, the trajectory is the
single origin point, the landmark set is empty and the previous-frame cache
is cleared; the state equals the initial state, so the next cycle runs the
tracker against nothing (no correspondences) and integrates a zero delta. -/
theorem c8_theorem (s : SlamState) (az : ℤ → ℤ → ℚ) (pz : ℚ) (cosF sinF : ℚ → ℚ)
    (ids : ℕ → ℚ) (dt : ℚ) (fr : Frame) (dd : Option DepthData) :
    handleReset s = initialState ∧
    (handleReset s).pose = ⟨0, 0, 0⟩ ∧
    (handleReset s).trajectory = [(0, 0)] ∧
    (handleReset s).landmarks = [] ∧
    (handleReset s).prevFrame = none ∧
    (handleReset s).prevFeatures = none ∧
    cycleMatches (handleReset s) fr = [] ∧
    processSLAMFrame az pz cosF sinF ids dt (handleReset s) fr dd =
      processSLAMFrame az pz cosF sinF ids dt initialState fr dd ∧
    (processSLAMFrame az pz cosF sinF ids dt (handleReset s) fr dd).pose = ⟨0, 0, 0⟩ ∧
    (processSLAMFrame az pz cosF sinF ids dt (handleReset s) fr dd).trajectory =
      [(0, 0), (0, 0)] := by
  refine ⟨rfl, rfl, rfl, rfl, rfl, rfl, rfl, rfl, ?_, ?_⟩
  · simp [processSLAMFrame, handleReset, cycleMatches, appliedDelta]
  · simp [processSLAMFrame, handleReset, cycleMatches, appliedDelta, maxTrajectory]

/-! ### C6 and C10: detector bounds and candidate counts -/

/-- An element of a grid insertion is an old entry or the inserted one. -/
theorem mem_gridInsert :
    ∀ (g : List ((ℤ × ℤ) × Cand)) (k : ℤ × ℤ) (c : Cand) (e : (ℤ × ℤ) × Cand),
      e ∈ gridInsert g k c → e ∈ g ∨ e = (k, c) := by
  intro g
  induction g with
  | nil =>
      intro k c e he
      simp only [gridInsert, List.mem_singleton] at he
      right; exact he
  | cons hd t ih =>
      intro k c e he
      obtain ⟨k', c'⟩ := hd
      unfold gridInsert at he
      by_cases hk : k' = k
      · rw [if_pos hk] at he
        by_cases hs : c'.score < c.score
        · rw [if_pos hs] at he
          rcases List.mem_cons.mp he with h | h
          · right; exact h
          · left; exact List.mem_cons_of_mem _ h
        · rw [if_neg hs] at he
          left; exact he
      · rw [if_neg hk] at he
        rcases List.mem_cons.mp he with h | h
        · left; rw [h]; exact List.mem_cons_self _ _
        · rcases ih k c e h with h' | h'
          · left; exact List.mem_cons_of_mem _ h'
          · right; exact h'

/-- An element produced by one scan step is an old entry or the candidate
built at that sample point. -/
theorem mem_scanStep (fr : Frame) (dd : Option DepthData)
    (g : List ((ℤ × ℤ) × Cand)) (p : ℤ × ℤ) (e : (ℤ × ℤ) × Cand)
    (he : e ∈ scanStep fr dd g p) :
    e ∈ g ∨ e = (gridKey p.1 p.2,
      ⟨p.1, p.2, max (brighterCount fr p.1 p.2) (darkerCount fr p.1 p.2),
       brighterCount fr p.1 p.2, darkerCount fr p.1 p.2, candDepth fr dd p.1 p.2⟩) := by
  simp only [scanStep] at he
  by_cases hb : 12 ≤ brighterCount fr p.1 p.2 ∨ 12 ≤ darkerCount fr p.1 p.2
  · rw [if_pos hb] at he
    exact mem_gridInsert g _ _ e he
  · rw [if_neg hb] at he
    left; exact he

/-- Fold invariant for the detection scan. -/
theorem foldl_scanStep_inv (fr : Frame) (dd : Option DepthData)
    (P : (ℤ × ℤ) × Cand → Prop) :
    ∀ (ps : List (ℤ × ℤ)) (g : List ((ℤ × ℤ) × Cand)),
      (∀ e ∈ g, P e) →
      (∀ p ∈ ps, P (gridKey p.1 p.2,
        ⟨p.1, p.2, max (brighterCount fr p.1 p.2) (darkerCount fr p.1 p.2),
         brighterCount fr p.1 p.2, darkerCount fr p.1 p.2, candDepth fr dd p.1 p.2⟩)) →
      ∀ e ∈ ps.foldl (scanStep fr dd) g, P e := by
  intro ps
  induction ps with
  | nil => intro g hg _ e he; exact hg e he
  | cons p t ih =>
      intro g hg hps e he
      rw [List.foldl_cons] at he
      refine ih (scanStep fr dd g p) ?_ (fun q hq => hps q (List.mem_cons_of_mem _ hq)) e he
      intro e' he'
      rcases mem_scanStep fr dd g p e' he' with h | h
      · exact hg e' h
      · rw [h]; exact hps p (List.mem_cons_self _ _)

/-- Scanned positions respect the border margin. -/
theorem mem_scanPositions {dim v : ℤ} (hv : v ∈ scanPositions dim) :
    10 ≤ v ∧ v < dim - 10 := by
  unfold scanPositions at hv
  rw [List.mem_filter] at hv
  have h := of_decide_eq_true hv.2
  exact ⟨h.1, h.2.1⟩

/-- Scanned sample points respect the border margin on both axes. -/
theorem mem_scanPairs {fr : Frame} {p : ℤ × ℤ} (hp : p ∈ scanPairs fr) :
    (10 ≤ p.1 ∧ p.1 < fr.width - 10) ∧ (10 ≤ p.2 ∧ p.2 < fr.height - 10) := by
  unfold scanPairs at hp
  rw [List.mem_flatMap] at hp
  obtain ⟨y, hy, hp2⟩ := hp
  rw [List.mem_map] at hp2
  obtain ⟨x, hx, rfl⟩ := hp2
  exact ⟨mem_scanPositions hx, mem_scanPositions hy⟩

/-- Every raw candidate records its sample point (inside the border margins)
and its actual brighter/darker counts, with score equal to their maximum. -/
theorem rawFeatures_spec (fr : Frame) (dd : Option DepthData) :
    ∀ c ∈ rawFeatures fr dd,
      10 ≤ c.x ∧ c.x < fr.width - 10 ∧ 10 ≤ c.y ∧ c.y < fr.height - 10 ∧
      c.brighterCount = brighterCount fr c.x c.y ∧
      c.darkerCount = darkerCount fr c.x c.y ∧
      c.score = max c.brighterCount c.darkerCount := by
  intro c hc
  unfold rawFeatures at hc
  rw [List.mem_map] at hc
  obtain ⟨e, he, rfl⟩ := hc
  unfold scanCands at he
  exact foldl_scanStep_inv fr dd
    (fun e => 10 ≤ e.2.x ∧ e.2.x < fr.width - 10 ∧ 10 ≤ e.2.y ∧ e.2.y < fr.height - 10 ∧
      e.2.brighterCount = brighterCount fr e.2.x e.2.y ∧
      e.2.darkerCount = darkerCount fr e.2.x e.2.y ∧
      e.2.score = max e.2.brighterCount e.2.darkerCount)
    (scanPairs fr) [] (by simp)
    (fun p hp => by
      obtain ⟨⟨hx1, hx2⟩, hy1, hy2⟩ := mem_scanPairs hp
      exact ⟨hx1, hx2, hy1, hy2, rfl, rfl, rfl⟩)
    e he

/-- C6: every returned feature lies at least the 10px border margin inside
every frame edge, and the returned list never exceeds 1500 features. -/
theorem c6_theorem (fr : Frame) (dd : Option DepthData) :
    (extractFeatures fr dd).length ≤ 1500 ∧
      ∀ f ∈ extractFeatures fr dd,
        10 ≤ f.x ∧ f.x < fr.width - 10 ∧ 10 ≤ f.y ∧ f.y < fr.height - 10 := by
  constructor
  · unfold extractFeatures
    exact le_trans (List.length_take_le _ _) (le_of_eq rfl)
  · intro f hf
    unfold extractFeatures at hf
    have hf1 := List.take_subset _ _ hf
    rw [List.mem_map] at hf1
    obtain ⟨c, hc, rfl⟩ := hf1
    have hc1 := (List.mem_filter.mp hc).1
    have h := rawFeatures_spec fr dd c hc1
    exact ⟨h.1, h.2.1, h.2.2.1, h.2.2.2.1⟩

/-- The detector's full evaluation on the 27x27 one-dark-pixel frame: the
single candidate is classified an obstacle by the strong-corner rule. -/
theorem extractFeatures_frame27 : extractFeatures frame27 none = [feat13] := by
  have hraws : rawFeatures frame27 none = [⟨13, 13, 16, 16, 0, none⟩] := by decide
  have hob : isObstacle frame27 [⟨13, 13, 16, 16, 0, none⟩] ⟨13, 13, 16, 16, 0, none⟩ = true := by
    have h5 : ruleStrong (⟨13, 13, 16, 16, 0, none⟩ : Cand) = true := by decide
    simp [isObstacle, h5]
  unfold extractFeatures
  rw [hraws]
  simp [hob, feat13, maxFeatures]

/-- C6, witness: the bounds evaluated on the concrete 27x27 frame, whose
feature list is `[feat13]`. -/
theorem c6_witness :
    (extractFeatures frame27 none).length ≤ 1500 ∧
      (10 ≤ feat13.x ∧ feat13.x < frame27.width - 10 ∧
        10 ≤ feat13.y ∧ feat13.y < frame27.height - 10) :=
  ⟨(c6_theorem frame27 none).1,
   (c6_theorem frame27 none).2 feat13
     (by rw [extractFeatures_frame27]; exact List.mem_singleton.mpr rfl)⟩

/-- Filters by two pointwise-exclusive predicates cover disjoint sublists. -/
theorem filter_disjoint_le (l : List (ℤ × ℤ)) (p q : (ℤ × ℤ) → Bool)
    (h : ∀ a ∈ l, ¬(p a = true ∧ q a = true)) :
    (l.filter p).length + (l.filter q).length ≤ l.length := by
  induction l with
  | nil => simp
  | cons a t ih =>
      have ht := ih (fun b hb => h b (List.mem_cons_of_mem _ hb))
      by_cases hp : p a = true
      · have hq : q a = false := by
          cases hqa : q a
          · rfl
          · exact absurd ⟨hp, hqa⟩ (h a (List.mem_cons_self _ _))
        simp only [List.filter_cons, hp, if_true, hq, Bool.false_eq_true, if_false,
          List.length_cons]
        omega
      · have hp' : p a = false := by
          cases hpa : p a
          · rfl
          · exact absurd hpa hp
        by_cases hq : q a = true
        · simp only [List.filter_cons, hp', Bool.false_eq_true, if_false, hq, if_true,
            List.length_cons]
          omega
        · have hq' : q a = false := by
            cases hqa : q a
            · rfl
            · exact absurd hqa hq
          simp only [List.filter_cons, hp', hq', Bool.false_eq_true, if_false,
            List.length_cons]
          omega

/-- No ring point is counted both strictly brighter and strictly darker, so
the two counts sum to at most the ring size 16. -/
theorem counts_le (fr : Frame) (x y : ℤ) :
    brighterCount fr x y + darkerCount fr x y ≤ 16 := by
  have hd : ∀ o ∈ circle,
      ¬(decide (centerIntensity fr x y + threshold < ringIntensity fr x y o) = true ∧
        decide (ringIntensity fr x y o < centerIntensity fr x y - threshold) = true) := by
    rintro o ho ⟨h1, h2⟩
    have g1 := of_decide_eq_true h1
    have g2 := of_decide_eq_true h2
    unfold threshold at g1 g2
    omega
  have h := filter_disjoint_le circle _ _ hd
  unfold brighterCount darkerCount
  calc (circle.filter _).length + (circle.filter _).length ≤ circle.length := h
    _ = 16 := by decide

/-- C10: every recorded corner candidate has `brighterCount + darkerCount ≤ 16`,
and consequently the high-contrast rule (`score ≥ 15` with
`|brighterCount − darkerCount| ≤ 2`) holds for no candidate: it never
classifies any feature as an obstacle. -/
theorem c10_theorem (fr : Frame) (dd : Option DepthData) :
    ∀ c ∈ rawFeatures fr dd,
      c.brighterCount + c.darkerCount ≤ 16 ∧ ruleHighContrast c = false := by
  intro c hc
  obtain ⟨_, _, _, _, hb, hd, hs⟩ := rawFeatures_spec fr dd c hc
  have hbd : c.brighterCount + c.darkerCount ≤ 16 := by
    rw [hb, hd]; exact counts_le fr c.x c.y
  refine ⟨hbd, ?_⟩
  unfold ruleHighContrast
  rw [decide_eq_false_iff_not]
  rintro ⟨h15, habs⟩
  rw [hs] at h15
  obtain ⟨hl, hr⟩ := abs_le.mp habs
  rcases le_max_iff.mp h15 with h | h <;> omega

/-- C10, witness: the concrete candidate recorded on the 27x27 frame. -/
theorem c10_witness :
    cand13.brighterCount + cand13.darkerCount ≤ 16 ∧ ruleHighContrast cand13 = false :=
  c10_theorem frame27 none cand13 (by decide)

/-! ### C7: landmark quality invariant and monotonicity -/

/-- Fusing a matched landmark preserves the landmark count. -/
theorem fuseFirst_length :
    ∀ (l : List Landmark) (w : ℚ × ℚ) (l' : List Landmark),
      fuseFirst l w = some l' → l'.length = l.length := by
  intro l
  induction l with
  | nil => intro w l' h; simp [fuseFirst] at h
  | cons lm t ih =>
      intro w l' h
      unfold fuseFirst at h
      by_cases hc : closeTo lm w = true
      · rw [if_pos hc] at h
        injection h with h
        rw [← h]; simp
      · rw [if_neg hc] at h
        cases ht : fuseFirst t w with
        | none => rw [ht] at h; simp at h
        | some t' =>
            rw [ht] at h
            simp only [Option.map_some'] at h
            injection h with h
            rw [← h]
            simp [ih w t' ht]

/-- Fusing preserves the quality bounds `[1, 10]`. -/
theorem fuseFirst_quality_bounds :
    ∀ (l : List Landmark) (w : ℚ × ℚ) (l' : List Landmark),
      fuseFirst l w = some l' →
      (∀ lm ∈ l, 1 ≤ lm.quality ∧ lm.quality ≤ 10) →
      ∀ lm ∈ l', 1 ≤ lm.quality ∧ lm.quality ≤ 10 := by
  intro l
  induction l with
  | nil => intro w l' h _; simp [fuseFirst] at h
  | cons lm t ih =>
      intro w l' h hq
      unfold fuseFirst at h
      by_cases hc : closeTo lm w = true
      · rw [if_pos hc] at h
        injection h with h
        intro lm' hm'
        rw [← h] at hm'
        rcases List.mem_cons.mp hm' with rfl | hmem
        · have hq0 := hq lm (List.mem_cons_self _ _)
          have hql : (fuseLandmark lm w).quality = min (lm.quality + 1) 10 := rfl
          rw [hql]
          exact ⟨le_min (by linarith [hq0.1]) (by norm_num), min_le_right _ _⟩
        · exact hq _ (List.mem_cons_of_mem _ hmem)
      · rw [if_neg hc] at h
        cases ht : fuseFirst t w with
        | none => rw [ht] at h; simp at h
        | some t' =>
            rw [ht] at h
            simp only [Option.map_some'] at h
            injection h with h
            intro lm' hm'
            rw [← h] at hm'
            rcases List.mem_cons.mp hm' with rfl | hmem
            · exact hq _ (List.mem_cons_self _ _)
            · exact ih w t' ht (fun a ha => hq a (List.mem_cons_of_mem _ ha)) _ hmem

/-- Fusing never decreases any landmark's quality (qualities at the cap stay). -/
theorem fuseFirst_quality_mono :
    ∀ (l : List Landmark) (w : ℚ × ℚ) (l' : List Landmark),
      fuseFirst l w = some l' →
      (∀ lm ∈ l, lm.quality ≤ 10) →
      ∀ i : ℕ, i < l.length → (l.getD i dLm).quality ≤ (l'.getD i dLm).quality := by
  intro l
  induction l with
  | nil => intro w l' h _; simp [fuseFirst] at h
  | cons lm t ih =>
      intro w l' h hq
      unfold fuseFirst at h
      by_cases hc : closeTo lm w = true
      · rw [if_pos hc] at h
        injection h with h
        subst h
        intro i hi
        cases i with
        | zero =>
            simp only [List.getD_cons_zero]
            have hql : (fuseLandmark lm w).quality = min (lm.quality + 1) 10 := rfl
            rw [hql]
            exact le_min (by linarith) (hq lm (List.mem_cons_self _ _))
        | succ n =>
            simp only [List.getD_cons_succ]
            exact le_refl _
      · rw [if_neg hc] at h
        cases ht : fuseFirst t w with
        | none => rw [ht] at h; simp at h
        | some t' =>
            rw [ht] at h
            simp only [Option.map_some'] at h
            injection h with h
            subst h
            intro i hi
            cases i with
            | zero => simp only [List.getD_cons_zero]; exact le_refl _
            | succ n =>
                simp only [List.getD_cons_succ]
                exact ih w t' ht (fun a ha => hq a (List.mem_cons_of_mem _ ha)) n
                  (by simp at hi; omega)

/-- One map-update step preserves the quality bounds. -/
theorem updateMapStep_bounds (cosF sinF : ℚ → ℚ) (ids : ℕ → ℚ) (currentPose : Pose)
    (st : List Landmark × ℕ) (feat : Feature)
    (hq : ∀ lm ∈ st.1, 1 ≤ lm.quality ∧ lm.quality ≤ 10) :
    ∀ lm ∈ (updateMapStep cosF sinF ids currentPose st feat).1,
      1 ≤ lm.quality ∧ lm.quality ≤ 10 := by
  simp only [updateMapStep]
  cases hf : fuseFirst st.1 (projectFeature cosF sinF currentPose feat) with
  | some l' => exact fuseFirst_quality_bounds _ _ _ hf hq
  | none =>
      by_cases hlen : st.1.length < maxLandmarks
      · rw [if_pos hlen]
        intro lm hm
        rcases List.mem_append.mp hm with h | h
        · exact hq _ h
        · rcases List.mem_singleton.mp h with rfl
          exact ⟨le_refl _, by norm_num⟩
      · rw [if_neg hlen]; exact hq

/-- One map-update step never shrinks the landmark list. -/
theorem updateMapStep_length (cosF sinF : ℚ → ℚ) (ids : ℕ → ℚ) (currentPose : Pose)
    (st : List Landmark × ℕ) (feat : Feature) :
    st.1.length ≤ (updateMapStep cosF sinF ids currentPose st feat).1.length := by
  simp only [updateMapStep]
  cases hf : fuseFirst st.1 (projectFeature cosF sinF currentPose feat) with
  | some l' => exact le_of_eq (fuseFirst_length _ _ _ hf).symm
  | none =>
      by_cases hlen : st.1.length < maxLandmarks
      · rw [if_pos hlen]; simp
      · rw [if_neg hlen]

/-- One map-update step never decreases an existing landmark's quality. -/
theorem updateMapStep_mono (cosF sinF : ℚ → ℚ) (ids : ℕ → ℚ) (currentPose : Pose)
    (st : List Landmark × ℕ) (feat : Feature)
    (hq : ∀ lm ∈ st.1, lm.quality ≤ 10) :
    ∀ i : ℕ, i < st.1.length →
      (st.1.getD i dLm).quality ≤
        ((updateMapStep cosF sinF ids currentPose st feat).1.getD i dLm).quality := by
  intro i hi
  simp only [updateMapStep]
  cases hf : fuseFirst st.1 (projectFeature cosF sinF currentPose feat) with
  | some l' => exact fuseFirst_quality_mono _ _ _ hf hq i hi
  | none =>
      by_cases hlen : st.1.length < maxLandmarks
      · rw [if_pos hlen]
        rw [List.getD_append _ _ _ _ hi]
      · rw [if_neg hlen]

/-- Fold invariant for `updateMap`: bounds are preserved, the list only
grows, and existing qualities never decrease. -/
theorem foldl_updateMap_inv (cosF sinF : ℚ → ℚ) (ids : ℕ → ℚ) (currentPose : Pose)
    (fs : List Feature) :
    ∀ (st : List Landmark × ℕ),
      (∀ lm ∈ st.1, 1 ≤ lm.quality ∧ lm.quality ≤ 10) →
      (∀ lm ∈ (fs.foldl (updateMapStep cosF sinF ids currentPose) st).1,
         1 ≤ lm.quality ∧ lm.quality ≤ 10) ∧
      st.1.length ≤ (fs.foldl (updateMapStep cosF sinF ids currentPose) st).1.length ∧
      ∀ i : ℕ, i < st.1.length →
        (st.1.getD i dLm).quality ≤
          ((fs.foldl (updateMapStep cosF sinF ids currentPose) st).1.getD i dLm).quality := by
  induction fs with
  | nil => intro st hq; exact ⟨hq, le_refl _, fun i hi => le_refl _⟩
  | cons f t ih =>
      intro st hq
      rw [List.foldl_cons]
      have hq1 := updateMapStep_bounds cosF sinF ids currentPose st f hq
      have hlen1 := updateMapStep_length cosF sinF ids currentPose st f
      have hmono1 := updateMapStep_mono cosF sinF ids currentPose st f
        (fun lm hm => (hq lm hm).2)
      obtain ⟨ha, hb, hc⟩ := ih (updateMapStep cosF sinF ids currentPose st f) hq1
      refine ⟨ha, le_trans hlen1 hb, ?_⟩
      intro i hi
      have hi1 : i < (updateMapStep cosF sinF ids currentPose st f).1.length :=
        lt_of_lt_of_le hi hlen1
      exact le_trans (hmono1 i hi) (hc i hi1)

/-- C7: if every landmark's quality lies in `[1, 10]`, then after a map update
every quality still lies in `[1, 10]` (never exceeding the cap), the landmark
list only grows, and each existing landmark's quality is monotonically
non-decreasing; by induction this holds across repeated updates. -/
theorem c7_theorem (cosF sinF : ℚ → ℚ) (ids : ℕ → ℚ) (landmarks : List Landmark)
    (features : List Feature) (currentPose : Pose)
    (hq : ∀ lm ∈ landmarks, 1 ≤ lm.quality ∧ lm.quality ≤ 10) :
    (∀ lm ∈ updateMap cosF sinF ids landmarks features currentPose,
       1 ≤ lm.quality ∧ lm.quality ≤ 10) ∧
    landmarks.length ≤ (updateMap cosF sinF ids landmarks features currentPose).length ∧
    ∀ i : ℕ, i < landmarks.length →
      (landmarks.getD i dLm).quality ≤
        ((updateMap cosF sinF ids landmarks features currentPose).getD i dLm).quality := by
  unfold updateMap
  exact foldl_updateMap_inv cosF sinF ids currentPose features (landmarks, 0) hq

/-- C7, witness: one close observation of a quality-1 landmark; the updated
quality stays within `[1, 10]`. -/
theorem c7_witness :
    1 ≤ ((updateMap cos1 sin0 (fun _ => 9) L0 F0 pose0).getD 0 dLm).quality ∧
      ((updateMap cos1 sin0 (fun _ => 9) L0 F0 pose0).getD 0 dLm).quality ≤ 10 := by
  have h := c7_theorem cos1 sin0 (fun _ => 9) L0 F0 pose0
    (by intro lm hm; simp [L0] at hm; subst hm; norm_num)
  have hev : updateMap cos1 sin0 (fun _ => 9) L0 F0 pose0 = [⟨5, 0, 0, 2⟩] := by
    norm_num [updateMap, updateMapStep, fuseFirst, closeTo, projectFeature, fuseLandmark,
      L0, F0, pose0, cos1, sin0, pixelToMeter, matchThreshold, maxLandmarks]
  have hm : (updateMap cos1 sin0 (fun _ => 9) L0 F0 pose0).getD 0 dLm ∈
      updateMap cos1 sin0 (fun _ => 9) L0 F0 pose0 := by
    rw [hev]; simp [List.getD]
  exact ⟨(h.1 _ hm).1, (h.1 _ hm).2⟩

end SLAM
